import Mathlib

/-!
Shallow embedding of the kancli terminal task board (src/main.go).

The board logic, focus model, moving and deleting of tasks, the new-task
form, and the two-slot mode registry are translated directly from
src/main.go.  The terminal rendering, styling and sizing values are
display-only and are not modelled.  The column (bubbles list.Model) and
the text fields (bubbles textinput.Model / textarea.Model) are external
library components whose sources are not part of this repository; they
are modelled from the behaviour the spec assigns to them, and each such
definition carries a doc comment saying so.
-/

namespace Kancli

/-- The three-valued status enumeration of src/main.go: todo, inProgress,
done, also used as the index of a column and as the focused column. -/
inductive status where
  | todo
  | inProgress
  | done
deriving DecidableEq, Repr

/-- The integer value of a status constant (todo = 0, inProgress = 1,
done = 2, as produced by iota in the Go source). -/
def status.toNat : status → Nat
  | .todo => 0
  | .inProgress => 1
  | .done => 2

/-- Models the Go integer increment on a status value.  In the source it
is only ever applied under a guard that the status is not done, so the
done branch here is unreachable; it is mapped to done to keep the
function total. -/
def status.inc : status → status
  | .todo => .inProgress
  | .inProgress => .done
  | .done => .done

/-- Models the Go integer decrement on a status value.  In the source it
is only ever applied under a guard that the status is not todo. -/
def status.dec : status → status
  | .todo => .todo
  | .inProgress => .todo
  | .done => .inProgress

/-- The Task record of src/main.go: a status, a title and a description. -/
structure Task where
  status : status
  title : String
  description : String
deriving DecidableEq, Repr

/-- NewTask constructor, as in src/main.go. -/
def NewTask (status : status) (title description : String) : Task :=
  { status := status, title := title, description := description }

/-- Task.Next from src/main.go: cyclic advance of the status of the task
(the receiver is mutated in Go; here the updated task is returned). -/
def Task.Next (t : Task) : Task :=
  if t.status = status.done then { t with status := status.todo }
  else { t with status := t.status.inc }

/-- Messages delivered by the bubbletea event loop, restricted to the
message kinds the program can receive: a terminal size notification, a
key press (identified by its string form, as switched on in the source),
the Task message produced by Form.CreateTask, the blink message produced
by textarea.Blink, and the nil message (used when Update is called with
nil). -/
inductive Msg where
  | windowSize (width height : Int)
  | key (k : String)
  | task (t : Task)
  | blink
  | null
deriving DecidableEq, Repr

/-- Modelled from the spec: a Column is an ordered sequence of tasks with
a single zero-based selected-index cursor (section 3).  The concrete
implementation is the external bubbles list.Model, which is not part of
this repository; only the attributes the source program touches are kept
(title, the show-help flag, the items and the cursor).  Display sizing is
omitted. -/
structure ListModel where
  title : String
  showHelp : Bool
  items : List Task
  cursor : Nat
deriving DecidableEq, Repr

/-- Modelled from the spec: a freshly constructed empty column, as
produced by list.New with an empty item slice. -/
def ListModel.new : ListModel :=
  { title := "", showHelp := true, items := [], cursor := 0 }

/-- Modelled from the spec: the selected index of the column. -/
def ListModel.Index (c : ListModel) : Nat := c.cursor

/-- Modelled from the spec (section 4.2): the task at the selected index,
or none if the column is empty or the selection is out of range; absence
is a valid outcome, never an error. -/
def ListModel.SelectedItem (c : ListModel) : Option Task :=
  c.items[c.cursor]?

/-- Modelled from the spec (section 4.2): remove the item at the given
index if it exists (no-op otherwise) and re-clamp the selection into
the interval from 0 to the new length minus one, the cursor falling back
to 0 when the column becomes empty (the selection is then absent because
SelectedItem returns none). -/
def ListModel.RemoveItem (c : ListModel) (i : Nat) : ListModel :=
  if i < c.items.length then
    let items := c.items.eraseIdx i
    { c with items := items, cursor := min c.cursor (items.length - 1) }
  else c

/-- Modelled from the spec (section 4.2): insert a task at the given
position, preserving the relative order of the existing items and the
selection.  The source only ever calls this with the length of the item
list, which appends. -/
def ListModel.InsertItem (c : ListModel) (i : Nat) (t : Task) : ListModel :=
  { c with items := c.items.take i ++ t :: c.items.drop i }

/-- Modelled from the spec: the item sequence of the column. -/
def ListModel.Items (c : ListModel) : List Task := c.items

/-- Modelled from the spec: the message handling of the external list
collaborator.  Up and down key presses move the cursor within bounds;
every other message, including terminal size notifications and the Task
message, is ignored by the list (sizing is done through a separate
setter the program never calls after load). -/
def ListModel.Update (c : ListModel) (msg : Msg) : ListModel :=
  match msg with
  | .key "up" => { c with cursor := c.cursor - 1 }
  | .key "down" => { c with cursor := min (c.cursor + 1) (c.items.length - 1) }
  | _ => c

/-- Modelled from the spec: the external text input collaborator
(textinput.Model for the title, textarea.Model for the description),
reduced to its focus flag and its captured text; text editing is
abstracted as appending the pressed key to the value while the field is
focused, and a field that is not focused ignores its input. -/
structure TextField where
  focused : Bool
  value : String
deriving DecidableEq, Repr

/-- Modelled from the spec: a freshly constructed blurred empty field. -/
def TextField.new : TextField := { focused := false, value := "" }

/-- Modelled from the spec: focus the field. -/
def TextField.Focus (f : TextField) : TextField := { f with focused := true }

/-- Modelled from the spec: blur the field. -/
def TextField.Blur (f : TextField) : TextField := { f with focused := false }

/-- Modelled from the spec: whether the field is focused. -/
def TextField.Focused (f : TextField) : Bool := f.focused

/-- Modelled from the spec: the captured text of the field. -/
def TextField.Value (f : TextField) : String := f.value

/-- Modelled from the spec: the editing behaviour of the external text
field on a message: a key press appends its text while the field is
focused; everything else leaves the field unchanged. -/
def TextField.Update (f : TextField) (msg : Msg) : TextField :=
  match msg with
  | .key k => if f.focused then { f with value := f.value ++ k } else f
  | _ => f

/-- The Form model of src/main.go: the target status fixed at creation
(field name focused, as in the source), the title input and the
description area. -/
structure Form where
  focused : status
  title : TextField
  description : TextField
deriving DecidableEq, Repr

/-- NewForm from src/main.go: builds a form for the given target status,
focuses the title field and leaves the description blurred. -/
def NewForm (focused : status) : Form :=
  let form : Form :=
    { focused := focused, title := TextField.new, description := TextField.new }
  let form := { form with title := form.title.Focus }
  form

/-- Form.CreateTask from src/main.go: the task the completed form emits
as a message. -/
def Form.CreateTask (m : Form) : Task :=
  NewTask m.focused m.title.Value m.description.Value

/-- The main Model of src/main.go: the loaded flag, the focused column,
the slice of column lists (indexed by the integer value of a status) and
the quitting flag. -/
structure Model where
  loaded : Bool
  focused : status
  lists : List ListModel
  quitting : Bool
deriving DecidableEq, Repr

/-- New from src/main.go: the zero-valued model (loaded false, focused
todo, no lists allocated yet, not quitting). -/
def New : Model :=
  { loaded := false, focused := status.todo, lists := [], quitting := false }

/-- Reads the column of a status from the list slice, mirroring the Go
slice indexing lists[s].  Out-of-range indexing panics in Go and is
never reached on a loaded board (the slice always has length three);
here it totalises to an empty column. -/
def getCol (ls : List ListModel) (s : status) : ListModel :=
  (ls[s.toNat]?).getD ListModel.new

/-- Writes the column of a status into the list slice, mirroring the Go
slice element assignment. -/
def setCol (ls : List ListModel) (s : status) (c : ListModel) : List ListModel :=
  ls.set s.toNat c

/-- Model.MoveToNext from src/main.go.  The selected task of the focused
column is read; if there is none the operation returns the model
unchanged.  Otherwise the task is removed from the focused column, its
status advanced, and focus switched to the column of the new status.
The insertion step of the source operates on targetList, a value copy of
the target column (Go struct assignment at line 94); InsertItem updates
that copy, which is never written back into m.lists, so the insertion
has no effect on the board.  The unused let binding below mirrors that
lost write. -/
def Model.MoveToNext (m : Model) : Model :=
  match (getCol m.lists m.focused).SelectedItem with
  | none => m
  | some selectedTask =>
    let removed :=
      (getCol m.lists m.focused).RemoveItem (getCol m.lists m.focused).Index
    let m1 : Model := { m with lists := setCol m.lists m.focused removed }
    let selectedTask := selectedTask.Next
    let targetList := getCol m1.lists selectedTask.status
    let _ := targetList.InsertItem targetList.Items.length selectedTask
    { m1 with focused := selectedTask.status }

/-- Model.DeleteTask from src/main.go: remove the item at the selected
index of the focused column when a selected item exists; otherwise do
nothing. -/
def Model.DeleteTask (m : Model) : Model :=
  match (getCol m.lists m.focused).SelectedItem with
  | some _ =>
    let removed :=
      (getCol m.lists m.focused).RemoveItem (getCol m.lists m.focused).Index
    { m with lists := setCol m.lists m.focused removed }
  | none => m

/-- Model.Next from src/main.go: cyclic advance of the focused column. -/
def Model.Next (m : Model) : Model :=
  if m.focused = status.done then { m with focused := status.todo }
  else { m with focused := m.focused.inc }

/-- Model.Prev from src/main.go: cyclic retreat of the focused column. -/
def Model.Prev (m : Model) : Model :=
  if m.focused = status.todo then { m with focused := status.done }
  else { m with focused := m.focused.dec }

/-- Model.initLists from src/main.go: allocate the three empty columns,
disable their help panels and set their titles.  The width and height
parameters size the external list views (width over divisor, height over
two); that sizing is display-only and not modelled. -/
def Model.initLists (m : Model) (_width _height : Int) : Model :=
  let ls := [ListModel.new, ListModel.new, ListModel.new]
  let ls := ls.map fun c => { c with showHelp := false }
  let ls := setCol ls status.todo { getCol ls status.todo with title := "To Do" }
  let ls := setCol ls status.inProgress
    { getCol ls status.inProgress with title := "In Progress" }
  let ls := setCol ls status.done { getCol ls status.done with title := "Done" }
  { m with lists := ls }

/-- The value a top-level tea.Model can take in this program: either the
main board Model or a Form.  The constructor names follow the two slot
names (the constants model and form) of the registry in src/main.go. -/
inductive AppModel where
  | model (m : Model)
  | form (f : Form)
deriving DecidableEq, Repr

/-- The global two-slot registry models of src/main.go (models[model]
holds the saved board, models[form] the last stored form).  In every
reachable state the first slot holds a Model and the second a Form, so
the slots are typed accordingly. -/
structure Registry where
  model : Model
  form : Form
deriving DecidableEq, Repr

/-- The commands the program returns to the bubbletea runtime: the nil
command, tea.Quit, textarea.Blink, the CreateTask closure of a completed
form (carrying the task it will emit as a message), and the MoveToNext
and DeleteTask method values returned on enter and d.  The two method
value commands are closures whose receiver mutation is the corresponding
Model function above; the message each of them returns is nil. -/
inductive Cmd where
  | none
  | quit
  | blink
  | createTask (t : Task)
  | moveToNext
  | deleteTask
deriving DecidableEq, Repr

/-- The fall-through tail of Model.Update in src/main.go: every message
that was not returned upon is handed to the Update of the focused list,
whose result is written back into the slice. -/
def Model.delegate (m : Model) (msg : Msg) : Model :=
  { m with lists := setCol m.lists m.focused ((getCol m.lists m.focused).Update msg) }

/-- The delegation tail of Form.Update in src/main.go: the message goes
to the title input while it is focused, otherwise to the description
area. -/
def Form.delegate (m : Form) (msg : Msg) : Form :=
  if m.title.Focused then { m with title := m.title.Update msg }
  else { m with description := m.description.Update msg }

/-- Form.Update from src/main.go.  The Go signature reads and writes the
global models registry and returns a tea.Model and a command; here the
registry is passed and returned explicitly.  ctrl+c quits; enter while
the title is focused moves focus to the description; enter otherwise
stores the form in its slot and returns the saved board together with
the CreateTask command; everything else is delegated to the focused
field. -/
def Form.Update (m : Form) (reg : Registry) (msg : Msg) :
    Registry × AppModel × Cmd :=
  match msg with
  | .key k =>
    if k = "ctrl+c" then (reg, .form m, .quit)
    else if k = "enter" then
      if m.title.Focused then
        let m := { m with title := m.title.Blur, description := m.description.Focus }
        (reg, .form m, .blink)
      else
        let reg := { reg with form := m }
        (reg, .model reg.model, .createTask m.CreateTask)
    else (reg, .form (m.delegate msg), .none)
  | _ => (reg, .form (m.delegate msg), .none)

/-- Model.Update from src/main.go, with the global registry passed and
returned explicitly.  A window size message runs initLists and sets
loaded on the first occurrence only (the style width and height writes
on the global lipgloss styles are display-only and not modelled); key
messages are dispatched as in the source, with left, h, right and l
falling through to the list delegation after moving focus; n saves the
board in its slot, builds a fresh form for the focused column and
returns the result of updating that form with the nil message; every
unrecognised message falls through to the list delegation. -/
def Model.Update (m : Model) (reg : Registry) (msg : Msg) :
    Registry × AppModel × Cmd :=
  match msg with
  | .windowSize width height =>
    let m := if !m.loaded then { m.initLists width height with loaded := true } else m
    (reg, .model (m.delegate msg), .none)
  | .key k =>
    if k = "ctrl+c" then (reg, .model { m with quitting := true }, .quit)
    else if k = "left" ∨ k = "h" then (reg, .model (m.Prev.delegate msg), .none)
    else if k = "right" ∨ k = "l" then (reg, .model (m.Next.delegate msg), .none)
    else if k = "enter" then (reg, .model m, .moveToNext)
    else if k = "d" then (reg, .model m, .deleteTask)
    else if k = "n" then
      let reg := { reg with model := m }
      let reg := { reg with form := NewForm m.focused }
      reg.form.Update reg Msg.null
    else (reg, .model (m.delegate msg), .none)
  | _ => (reg, .model (m.delegate msg), .none)

/-- The state of the running program: the global registry plus the model
the bubbletea runtime currently holds. -/
structure App where
  models : Registry
  current : AppModel
deriving DecidableEq, Repr

/-- Deliver one message to the current model, as the bubbletea event
loop does, producing the next program state and the returned command. -/
def App.step (a : App) (msg : Msg) : App × Cmd :=
  match a.current with
  | .model m =>
    let r := m.Update a.models msg
    ({ models := r.1, current := r.2.1 }, r.2.2)
  | .form f =>
    let r := f.Update a.models msg
    ({ models := r.1, current := r.2.1 }, r.2.2)

/-- The message a command delivers back into the event loop when the
runtime executes it.  The nil command produces nothing; tea.Quit is
consumed by the runtime itself and never reaches Update; CreateTask
returns the task as a message; Blink returns the blink message; the
MoveToNext and DeleteTask closures return the nil Go message, which the
runtime discards (their mutation applies to a receiver copy that is no
longer the model held by the runtime). -/
def runCmd : Cmd → Option Msg
  | .none => Option.none
  | .quit => Option.none
  | .blink => some Msg.blink
  | .createTask t => some (Msg.task t)
  | .moveToNext => Option.none
  | .deleteTask => Option.none

/-- Deliver a message and then feed the message produced by the returned
command, if any, back into the loop. -/
def App.stepCmd (a : App) (msg : Msg) : App :=
  let r := a.step msg
  match runCmd r.2 with
  | Option.none => r.1
  | some msg2 => (r.1.step msg2).1

/-- Run a sequence of input messages through the event loop. -/
def App.run (a : App) : List Msg → App
  | [] => a
  | msg :: rest => (a.stepCmd msg).run rest

/-- The initial program state built in main: the registry holds a fresh
zero-valued board and a form targeting todo, and the runtime starts on
the board slot. -/
def App.init : App :=
  let reg : Registry := { model := New, form := NewForm status.todo }
  { models := reg, current := .model reg.model }

/-! ### Helper lemmas about the column slice -/

theorem status.toNat_lt_three (s : status) : s.toNat < 3 := by
  cases s <;> simp [status.toNat]

theorem status.toNat_injective {s s' : status} (h : s ≠ s') : s.toNat ≠ s'.toNat := by
  cases s <;> cases s' <;> simp_all [status.toNat]

theorem getCol_setCol_self {ls : List ListModel} {s : status} (c : ListModel)
    (h : s.toNat < ls.length) : getCol (setCol ls s c) s = c := by
  simp [getCol, setCol, List.getElem?_set_self h]

theorem getCol_setCol_ne {ls : List ListModel} {s s' : status} (c : ListModel)
    (h : s' ≠ s) : getCol (setCol ls s c) s' = getCol ls s' := by
  simp [getCol, setCol, List.getElem?_set_ne (status.toNat_injective (Ne.symm h))]

theorem set_self_of_getElem {α : Type} (l : List α) (i : Nat) (h : i < l.length) :
    l.set i l[i] = l := by
  apply List.ext_getElem?
  intro j
  rw [List.getElem?_set]
  by_cases hij : i = j
  · subst hij
    simp [h, List.getElem?_eq_getElem h]
  · simp [hij]

theorem setCol_getCol_self (ls : List ListModel) (s : status) :
    setCol ls s (getCol ls s) = ls := by
  by_cases h : s.toNat < ls.length
  · have : getCol ls s = ls[s.toNat] := by
      simp [getCol, List.getElem?_eq_getElem h]
    rw [this]
    exact set_self_of_getElem ls s.toNat h
  · exact List.set_eq_of_length_le (Nat.le_of_not_lt h)

theorem selectedItem_isSome_facts (ls : List ListModel) (s : status)
    (h : (getCol ls s).SelectedItem.isSome = true) :
    s.toNat < ls.length ∧ (getCol ls s).cursor < (getCol ls s).items.length := by
  obtain ⟨t, ht⟩ := Option.isSome_iff_exists.mp h
  have hcur : (getCol ls s).cursor < (getCol ls s).items.length := by
    have := List.getElem?_eq_some.mp ht
    exact this.1
  refine ⟨?_, hcur⟩
  by_contra hlen
  have hnone : ls[s.toNat]? = Option.none :=
    List.getElem?_eq_none (Nat.le_of_not_lt hlen)
  have : getCol ls s = ListModel.new := by simp [getCol, hnone]
  rw [this] at hcur
  simp [ListModel.new] at hcur

/-! ### Concrete fixtures used by the claim theorems and witnesses -/

/-- The scenario task of the spec (section 8). -/
def sampleTask : Task := NewTask status.todo "Write spec" "Core engine"

/-- A loaded column with the given title and items, cursor at zero. -/
def mkCol (title : String) (tasks : List Task) : ListModel :=
  { title := title, showHelp := false, items := tasks, cursor := 0 }

/-- A loaded board holding exactly one task, in the todo column, focus on
todo. -/
def sampleBoard : Model :=
  { loaded := true, focused := status.todo,
    lists := [mkCol "To Do" [sampleTask], mkCol "In Progress" [], mkCol "Done" []],
    quitting := false }

/-- A loaded board with three empty columns, focus on todo. -/
def emptyBoard : Model :=
  { loaded := true, focused := status.todo,
    lists := [mkCol "To Do" [], mkCol "In Progress" [], mkCol "Done" []],
    quitting := false }

/-! ### Claim theorems -/

/-- C5: for every status value, advancing a task three times returns its
status (and the whole task) to its original value, and the single-step
order is todo to inProgress to done and back to todo. -/
theorem task_next_cyclic :
    (∀ t : Task, t.Next.Next.Next = t)
    ∧ (∀ title description, (NewTask status.todo title description).Next
        = NewTask status.inProgress title description)
    ∧ (∀ title description, (NewTask status.inProgress title description).Next
        = NewTask status.done title description)
    ∧ (∀ title description, (NewTask status.done title description).Next
        = NewTask status.todo title description) := by
  refine ⟨?_, ?_, ?_, ?_⟩
  · intro t
    obtain ⟨s, ti, d⟩ := t
    cases s <;> rfl
  · intro ti d; rfl
  · intro ti d; rfl
  · intro ti d; rfl

/-- C8: focus navigation is cyclic over the three columns: Prev inverts
Next and conversely, three applications of either are the identity, both
operations change only the focused field, the single-step order is todo
to inProgress to done and back (and the reverse for Prev), and the
focused field is always one of the three valid status values. -/
theorem focus_nav_cyclic :
    (∀ m : Model, m.Next.Prev = m ∧ m.Prev.Next = m)
    ∧ (∀ m : Model, m.Next.Next.Next = m ∧ m.Prev.Prev.Prev = m)
    ∧ (∀ m : Model, m.Next.lists = m.lists ∧ m.Next.loaded = m.loaded
        ∧ m.Next.quitting = m.quitting ∧ m.Prev.lists = m.lists
        ∧ m.Prev.loaded = m.loaded ∧ m.Prev.quitting = m.quitting)
    ∧ (∀ m : Model,
        ({ m with focused := status.todo } : Model).Next.focused = status.inProgress
        ∧ ({ m with focused := status.inProgress } : Model).Next.focused = status.done
        ∧ ({ m with focused := status.done } : Model).Next.focused = status.todo
        ∧ ({ m with focused := status.todo } : Model).Prev.focused = status.done
        ∧ ({ m with focused := status.done } : Model).Prev.focused = status.inProgress
        ∧ ({ m with focused := status.inProgress } : Model).Prev.focused = status.todo)
    ∧ (∀ m : Model, m.focused = status.todo ∨ m.focused = status.inProgress
        ∨ m.focused = status.done) := by
  refine ⟨?_, ?_, ?_, ?_, ?_⟩ <;> intro m <;> obtain ⟨l, f, ls, q⟩ := m <;>
    cases f <;> simp [Model.Next, Model.Prev, status.inc, status.dec]

/-- C6: when the focused column has no selected task, MoveToNext returns
the model unchanged: no column, no selection, no focus change, no crash. -/
theorem moveToNext_noop_without_selection (m : Model)
    (h : (getCol m.lists m.focused).SelectedItem = Option.none) :
    m.MoveToNext = m := by
  simp [Model.MoveToNext, h]

/-- Witness for C6 at a loaded board with three empty columns. -/
theorem moveToNext_noop_witness :
    (getCol emptyBoard.lists emptyBoard.focused).SelectedItem = Option.none
    ∧ emptyBoard.MoveToNext = emptyBoard :=
  ⟨rfl, moveToNext_noop_without_selection emptyBoard rfl⟩

/-- C1 fails on the code: on a board whose focused todo column holds one
task, MoveToNext removes the task and refocuses to inProgress, but the
insertion is applied to a discarded copy of the target column, so after
the call every column is empty and the task is gone; the claim requires
the inProgress column to have gained the task. -/
theorem moveToNext_loses_task :
    (getCol sampleBoard.lists status.todo).items = [sampleTask]
    ∧ sampleBoard.MoveToNext.focused = status.inProgress
    ∧ (getCol sampleBoard.MoveToNext.lists status.todo).items = []
    ∧ (getCol sampleBoard.MoveToNext.lists status.inProgress).items = []
    ∧ (getCol sampleBoard.MoveToNext.lists status.done).items = [] :=
  ⟨rfl, rfl, rfl, rfl, rfl⟩

/-- C7: DeleteTask never changes the focused field, the loaded and
quitting flags, or the two columns that are not focused; with no
selected task it is a complete no-op, and with a selected task the
focused column becomes the old column with the item at the selected
index erased, the remaining tasks untouched. -/
theorem deleteTask_frame (m : Model) :
    m.DeleteTask.focused = m.focused
    ∧ m.DeleteTask.loaded = m.loaded
    ∧ m.DeleteTask.quitting = m.quitting
    ∧ (∀ s : status, s ≠ m.focused → getCol m.DeleteTask.lists s = getCol m.lists s)
    ∧ ((getCol m.lists m.focused).SelectedItem = Option.none → m.DeleteTask = m)
    ∧ (∀ t, (getCol m.lists m.focused).SelectedItem = some t →
        (getCol m.DeleteTask.lists m.focused).items
          = (getCol m.lists m.focused).items.eraseIdx (getCol m.lists m.focused).Index) := by
  cases h : (getCol m.lists m.focused).SelectedItem with
  | none =>
    have hm : m.DeleteTask = m := by simp [Model.DeleteTask, h]
    exact ⟨by rw [hm], by rw [hm], by rw [hm], fun s _ => by rw [hm],
      fun _ => hm, fun t ht => Option.noConfusion ht⟩
  | some t =>
    have hfacts := selectedItem_isSome_facts m.lists m.focused (by rw [h]; rfl)
    have hD : m.DeleteTask = { m with lists := setCol m.lists m.focused ((getCol m.lists m.focused).RemoveItem (getCol m.lists m.focused).Index) } := by
      simp [Model.DeleteTask, h]
    refine ⟨by rw [hD], by rw [hD], by rw [hD], ?_, fun hnone => Option.noConfusion hnone, ?_⟩
    · intro s hs
      rw [hD]
      exact getCol_setCol_ne _ hs
    · intro t' _
      rw [hD]
      show (getCol (setCol m.lists m.focused _) m.focused).items = _
      rw [getCol_setCol_self _ hfacts.1]
      simp [ListModel.RemoveItem, ListModel.Index, hfacts.2]

/-- Witness for C7 at the one-task board: the selection is present and
the deletion erases exactly the selected index. -/
theorem deleteTask_frame_witness :
    (getCol sampleBoard.lists sampleBoard.focused).SelectedItem = some sampleTask
    ∧ (getCol sampleBoard.DeleteTask.lists sampleBoard.focused).items
        = (getCol sampleBoard.lists sampleBoard.focused).items.eraseIdx
            (getCol sampleBoard.lists sampleBoard.focused).Index :=
  ⟨rfl, (deleteTask_frame sampleBoard).2.2.2.2.2 sampleTask rfl⟩

/-- The selection invariant of the spec (sections 3 and 4.2): the
selected index of a column is absent (the column is empty) or within the
interval from 0 to the length minus one. -/
def colOK (c : ListModel) : Prop := c.items = [] ∨ c.cursor < c.items.length

/-- An in-range removal re-establishes the selection invariant
unconditionally. -/
theorem colOK_removeItem (c : ListModel) (h : c.cursor < c.items.length) :
    colOK (c.RemoveItem c.Index) := by
  have hre : c.RemoveItem c.Index = { c with items := c.items.eraseIdx c.cursor, cursor := min c.cursor ((c.items.eraseIdx c.cursor).length - 1) } := by
    simp [ListModel.RemoveItem, ListModel.Index, h]
  rw [hre]
  by_cases hz : (c.items.eraseIdx c.cursor).length = 0
  · exact Or.inl (List.length_eq_zero.mp hz)
  · refine Or.inr ?_
    have hpos : 0 < (c.items.eraseIdx c.cursor).length := Nat.pos_of_ne_zero hz
    calc min c.cursor ((c.items.eraseIdx c.cursor).length - 1)
        ≤ (c.items.eraseIdx c.cursor).length - 1 := Nat.min_le_right _ _
      _ < (c.items.eraseIdx c.cursor).length := Nat.sub_lt hpos Nat.one_pos

/-- C4: after the removal performed by DeleteTask or by the removal step
of MoveToNext, the selection of the affected column (the column that was
focused when the operation ran) is absent or within bounds; no stale
out-of-range selection is left behind. -/
theorem removal_reclamps_selection (m : Model)
    (h : (getCol m.lists m.focused).SelectedItem.isSome = true) :
    colOK (getCol m.DeleteTask.lists m.focused)
    ∧ colOK (getCol m.MoveToNext.lists m.focused) := by
  obtain ⟨t, ht⟩ := Option.isSome_iff_exists.mp h
  have hfacts := selectedItem_isSome_facts m.lists m.focused h
  constructor
  · have hD : m.DeleteTask.lists = setCol m.lists m.focused ((getCol m.lists m.focused).RemoveItem (getCol m.lists m.focused).Index) := by
      simp [Model.DeleteTask, ht]
    rw [hD, getCol_setCol_self _ hfacts.1]
    exact colOK_removeItem _ hfacts.2
  · have hM : m.MoveToNext.lists = setCol m.lists m.focused ((getCol m.lists m.focused).RemoveItem (getCol m.lists m.focused).Index) := by
      simp [Model.MoveToNext, ht]
    rw [hM, getCol_setCol_self _ hfacts.1]
    exact colOK_removeItem _ hfacts.2

/-- Witness for C4 at the one-task board. -/
theorem removal_reclamps_selection_witness :
    (getCol sampleBoard.lists sampleBoard.focused).SelectedItem.isSome = true
    ∧ (colOK (getCol sampleBoard.DeleteTask.lists sampleBoard.focused)
        ∧ colOK (getCol sampleBoard.MoveToNext.lists sampleBoard.focused)) :=
  ⟨rfl, removal_reclamps_selection sampleBoard rfl⟩

/-- The three freshly initialised columns produced by initLists. -/
def initialColumns : List ListModel :=
  [{ title := "To Do", showHelp := false, items := [], cursor := 0 },
   { title := "In Progress", showHelp := false, items := [], cursor := 0 },
   { title := "Done", showHelp := false, items := [], cursor := 0 }]

theorem next_loaded (m : Model) : m.Next.loaded = m.loaded := by
  unfold Model.Next
  split <;> rfl

theorem prev_loaded (m : Model) : m.Prev.loaded = m.loaded := by
  unfold Model.Prev
  split <;> rfl

theorem delegate_windowSize (m : Model) (w h : Int) :
    m.delegate (.windowSize w h) = m := by
  have hu : (getCol m.lists m.focused).Update (.windowSize w h)
      = getCol m.lists m.focused := rfl
  simp [Model.delegate, hu, setCol_getCol_self]

/-- C9: the first window size message on an unloaded board allocates the
three empty columns and sets loaded; on a loaded board a window size
message changes nothing at all; and no message ever takes a board from
loaded back to unloaded, so the initializer can never run again. -/
theorem windowSize_init_once :
    (∀ (m : Model) (reg : Registry) (w h : Int), m.loaded = false →
      Model.Update m reg (.windowSize w h)
        = (reg, .model { m with lists := initialColumns, loaded := true }, Cmd.none))
    ∧ (∀ (m : Model) (reg : Registry) (w h : Int), m.loaded = true →
      Model.Update m reg (.windowSize w h) = (reg, .model m, Cmd.none))
    ∧ (∀ (m : Model) (reg : Registry) (msg : Msg) (m2 : Model), m.loaded = true →
      (Model.Update m reg msg).2.1 = .model m2 → m2.loaded = true) := by
  refine ⟨?_, ?_, ?_⟩
  · intro m reg w h hm
    have hinit : m.initLists w h = { m with lists := initialColumns } := rfl
    simp [Model.Update, hm, hinit, delegate_windowSize]
  · intro m reg w h hm
    simp [Model.Update, hm, delegate_windowSize]
  · intro m reg msg m2 hm h2
    cases msg with
    | windowSize w h =>
      simp [Model.Update, hm, delegate_windowSize] at h2
      rw [← h2]
      exact hm
    | key k =>
      simp only [Model.Update] at h2
      split at h2
      · simp only [AppModel.model.injEq] at h2
        rw [← h2]
        exact hm
      · split at h2
        · simp only [AppModel.model.injEq] at h2
          rw [← h2, Model.delegate]
          exact (prev_loaded m).trans hm
        · split at h2
          · simp only [AppModel.model.injEq] at h2
            rw [← h2, Model.delegate]
            exact (next_loaded m).trans hm
          · split at h2
            · simp only [AppModel.model.injEq] at h2
              rw [← h2]
              exact hm
            · split at h2
              · simp only [AppModel.model.injEq] at h2
                rw [← h2]
                exact hm
              · split at h2
                · simp [Form.Update, Form.delegate] at h2
                · simp only [AppModel.model.injEq] at h2
                  rw [← h2, Model.delegate]
                  exact hm
    | task t =>
      simp only [Model.Update, AppModel.model.injEq] at h2
      rw [← h2, Model.delegate]
      exact hm
    | blink =>
      simp only [Model.Update, AppModel.model.injEq] at h2
      rw [← h2, Model.delegate]
      exact hm
    | null =>
      simp only [Model.Update, AppModel.model.injEq] at h2
      rw [← h2, Model.delegate]
      exact hm

/-- Witness for C9: the initial zero board loads on the first window
size message, and a loaded board ignores a second one. -/
theorem windowSize_init_once_witness :
    Model.Update New App.init.models (.windowSize 80 24)
      = (App.init.models, .model { New with lists := initialColumns, loaded := true }, Cmd.none)
    ∧ Model.Update emptyBoard App.init.models (.windowSize 80 24)
      = (App.init.models, .model emptyBoard, Cmd.none)
    ∧ emptyBoard.loaded = true :=
  ⟨windowSize_init_once.1 New App.init.models 80 24 rfl,
   windowSize_init_once.2.1 emptyBoard App.init.models 80 24 rfl,
   windowSize_init_once.2.2 emptyBoard App.init.models (.key "x") emptyBoard rfl rfl⟩

/-- C3: the n key stores the current board unchanged in its registry
slot and hands control to a fresh form for the focused column; no
message processed by the form ever changes the stored board; whenever
the form hands a board back it is exactly the stored board; and the
terminate key inside the form quits without touching the registry and
without producing a task. -/
theorem form_session_preserves_board :
    (∀ (m : Model) (reg : Registry),
        (Model.Update m reg (.key "n")).1.model = m
        ∧ (Model.Update m reg (.key "n")).1.form = NewForm m.focused
        ∧ (Model.Update m reg (.key "n")).2.1 = .form (NewForm m.focused)
        ∧ (Model.Update m reg (.key "n")).2.2 = Cmd.none)
    ∧ (∀ (f : Form) (reg : Registry) (msg : Msg),
        (Form.Update f reg msg).1.model = reg.model)
    ∧ (∀ (f : Form) (reg : Registry) (msg : Msg),
        (∃ f2, (Form.Update f reg msg).2.1 = .form f2)
        ∨ (Form.Update f reg msg).2.1 = .model reg.model)
    ∧ (∀ (f : Form) (reg : Registry),
        Form.Update f reg (.key "ctrl+c") = (reg, .form f, Cmd.quit)) := by
  refine ⟨?_, ?_, ?_, ?_⟩
  · intro m reg
    exact ⟨rfl, rfl, rfl, rfl⟩
  · intro f reg msg
    cases msg with
    | key k =>
      simp only [Form.Update]
      split
      · rfl
      · split
        · split
          · rfl
          · rfl
        · rfl
    | windowSize w h => rfl
    | task t => rfl
    | blink => rfl
    | null => rfl
  · intro f reg msg
    cases msg with
    | key k =>
      simp only [Form.Update]
      split
      · exact Or.inl ⟨f, rfl⟩
      · split
        · split
          · exact Or.inl ⟨_, rfl⟩
          · exact Or.inr rfl
        · exact Or.inl ⟨_, rfl⟩
    | windowSize w h => exact Or.inl ⟨_, rfl⟩
    | task t => exact Or.inl ⟨_, rfl⟩
    | blink => exact Or.inl ⟨_, rfl⟩
    | null => exact Or.inl ⟨_, rfl⟩
  · intro f reg
    rfl

theorem textField_update_keeps_focus (f : TextField) (msg : Msg) :
    (f.Update msg).focused = f.focused := by
  cases msg with
  | key k =>
    simp only [TextField.Update]
    split <;> rfl
  | windowSize w h => rfl
  | task t => rfl
  | blink => rfl
  | null => rfl

/-- C10: a fresh form focuses the title and not the description; the
first confirm blurs the title and focuses the description; the
exclusive-focus invariant is preserved by every message the form
processes; and every other key press is delegated to the one focused
field, leaving the other field untouched. -/
theorem form_focus_exclusive :
    (∀ s, (NewForm s).title.Focused = true ∧ (NewForm s).description.Focused = false)
    ∧ (∀ (f : Form) (reg : Registry), f.title.Focused = true →
        Form.Update f reg (.key "enter")
          = (reg, .form { f with title := f.title.Blur, description := f.description.Focus }, Cmd.blink))
    ∧ (∀ (f : Form) (reg : Registry) (msg : Msg) (f2 : Form),
        f.title.Focused ≠ f.description.Focused →
        (Form.Update f reg msg).2.1 = .form f2 →
        f2.title.Focused ≠ f2.description.Focused)
    ∧ (∀ (f : Form) (reg : Registry) (k : String), k ≠ "ctrl+c" → k ≠ "enter" →
        Form.Update f reg (.key k) = (reg, .form (f.delegate (.key k)), Cmd.none)
        ∧ (f.title.Focused = true → (f.delegate (.key k)).title = f.title.Update (.key k)
            ∧ (f.delegate (.key k)).description = f.description)
        ∧ (f.title.Focused = false → (f.delegate (.key k)).description = f.description.Update (.key k)
            ∧ (f.delegate (.key k)).title = f.title)) := by
  have hdel : ∀ (f : Form) (msg : Msg),
      (f.delegate msg).title.Focused = f.title.Focused
      ∧ (f.delegate msg).description.Focused = f.description.Focused := by
    intro f msg
    unfold Form.delegate
    split
    · exact ⟨textField_update_keeps_focus f.title msg, rfl⟩
    · exact ⟨rfl, textField_update_keeps_focus f.description msg⟩
  refine ⟨fun s => ⟨rfl, rfl⟩, ?_, ?_, ?_⟩
  · intro f reg hf
    simp [Form.Update, hf]
  · intro f reg msg f2 hx h2
    cases msg with
    | key k =>
      simp only [Form.Update] at h2
      split at h2
      · cases h2
        exact hx
      · split at h2
        · split at h2
          · cases h2
            simp only [TextField.Focused, TextField.Blur, TextField.Focus]
            simp
          · cases h2
        · cases h2
          rw [(hdel f (.key k)).1, (hdel f (.key k)).2]
          exact hx
    | windowSize w h =>
      cases h2
      rw [(hdel f _).1, (hdel f _).2]
      exact hx
    | task t =>
      cases h2
      rw [(hdel f _).1, (hdel f _).2]
      exact hx
    | blink =>
      cases h2
      rw [(hdel f _).1, (hdel f _).2]
      exact hx
    | null =>
      cases h2
      rw [(hdel f _).1, (hdel f _).2]
      exact hx
  · intro f reg k hk1 hk2
    refine ⟨?_, ?_, ?_⟩
    · simp only [Form.Update]
      rw [if_neg hk1, if_neg hk2]
    · intro hf
      unfold Form.delegate
      rw [if_pos hf]
      exact ⟨rfl, rfl⟩
    · intro hf
      unfold Form.delegate
      rw [if_neg (by simp [hf])]
      exact ⟨rfl, rfl⟩

/-- Witness for C10: the fresh form targeting todo has the title focused,
and the first confirm moves focus to the description. -/
theorem form_focus_exclusive_witness :
    (NewForm status.todo).title.Focused = true
    ∧ Form.Update (NewForm status.todo) App.init.models (.key "enter")
        = (App.init.models,
           .form { NewForm status.todo with title := (NewForm status.todo).title.Blur, description := (NewForm status.todo).description.Focus },
           Cmd.blink) :=
  ⟨rfl, form_focus_exclusive.2.1 (NewForm status.todo) App.init.models rfl⟩

/-- The starting state of the round-trip scenario of the spec: the
registry as built by main, the runtime holding a loaded board with three
empty columns focused on todo. -/
def scenarioApp : App :=
  { models := { model := New, form := NewForm status.todo }, current := .model emptyBoard }

/-- The key sequence of the round-trip scenario: open the form, type the
title, confirm, type the description, confirm. -/
def scenarioKeys : List Msg :=
  [.key "n", .key "T", .key "enter", .key "D", .key "enter"]

/-- C2 fails on the code: running the full round trip (form targeting
todo, title T, confirm, description D, confirm) returns control to the
preserved board, and the second confirm does produce the CreateTask
command carrying the task with status todo, title T and description D,
but the board has no handler for the Task message (Model.Update matches
only window size and key messages, and the list delegation ignores the
Task message), so the final board is the original board with all three
columns still empty: no task is ever inserted. -/
theorem form_roundtrip_task_never_inserted :
    ((scenarioApp.run (scenarioKeys.take 4)).step (.key "enter")).2
        = Cmd.createTask (NewTask status.todo "T" "D")
    ∧ Model.Update emptyBoard App.init.models (Msg.task (NewTask status.todo "T" "D"))
        = (App.init.models, .model emptyBoard, Cmd.none)
    ∧ (scenarioApp.run scenarioKeys).current = .model emptyBoard
    ∧ (scenarioApp.run scenarioKeys).models.model = emptyBoard
    ∧ (getCol emptyBoard.lists status.todo).items = []
    ∧ (getCol emptyBoard.lists status.inProgress).items = []
    ∧ (getCol emptyBoard.lists status.done).items = [] :=
  ⟨rfl, rfl, rfl, rfl, rfl, rfl, rfl⟩

end Kancli
